import Mathlib

/-!
# Verification of the flecs systems module (`include/flecs/modules/systems.h`)

The repository ships only the public header of the systems module; the
implementations of `ecs_run`, `ecs_run_w_filter`, `ecs_enable`,
`ecs_set_system_status_action` and trigger dispatch are not part of the
sources. Following the specification (`spec.md`, §4.2–§4.5, §7, §8) and the
documentation comments in the header, we model the module as a shallow
embedding: tables, systems, the runner, the status manager and the trigger
dispatcher become executable Lean definitions, and the specified properties
become theorems about them.

Machine integers (`int32_t` offset/limit) are modelled as `Int`; entity
handles (`ecs_entity_t`) as `Nat` with `0` the null handle, as in flecs;
`float` delta-time values are passed through opaquely and modelled as `Int`
(the runner never computes with them, it only forwards them).
-/

namespace Flecs

/-- A storage table (archetype): its identity, its component-type set and the
entities it currently holds. Mirrors the glossary of the spec: "the set of
all entities sharing an identical component-type set". -/
structure Table where
  id : Nat
  typ : List Nat
  entities : List Nat
  deriving DecidableEq, Repr

/-- Component used to provide a tick source to systems
(`EcsTickSource` in `systems.h`): `tick` is true if providing a tick,
`time_elapsed` is the time elapsed since the last tick. -/
structure EcsTickSource where
  tick : Bool
  time_elapsed : Int
  deriving DecidableEq, Repr

/-- The data the runner hands to a system callback for one table batch:
the table, the slice of its entities visited in this batch, the delta time
and the user parameter. This is the visible part of the spec's per-run
iteration context (`ecs_iter_t`). -/
structure Iter where
  table : Table
  entities : List Nat
  delta_time : Int
  param : Nat
  deriving DecidableEq, Repr

/-- A system callback: receives the iteration context for one batch and
returns the value it stored in `interrupted_by` (`0` when it did not set
the interruption signal). -/
def IterAction : Type := Iter → Nat

/-- A system as the runner sees it: enabled flag, the live list of matched
tables (in visitation order), the callback and an optional tick source
dependency. -/
structure EcsSystem where
  enabled : Bool
  matchedTables : List Table
  action : IterAction
  tickSource : Option EcsTickSource

/-- System status change events (`ecs_system_status_t` in `systems.h`). -/
inductive ecs_system_status_t where
  | EcsSystemStatusNone
  | EcsSystemEnabled
  | EcsSystemDisabled
  | EcsSystemActivated
  | EcsSystemDeactivated
  deriving DecidableEq, Repr

/-- Error taxonomy of the spec (§7). -/
inductive EcsError where
  | InvalidRangeError
  | InvalidSignatureError
  | UnknownComponentError
  | ParseError
  deriving DecidableEq, Repr

/-- Record of one callback invocation: which table was handed to the
callback, which entity slice, and with what delta time and parameter. -/
structure Invocation where
  tableId : Nat
  entities : List Nat
  delta_time : Int
  param : Nat
  deriving DecidableEq, Repr

/-- The observable outcome of a run call: the returned handle or error,
the sequence of callback invocations performed, and the status events
fired during the call. -/
structure RunOutcome where
  result : Except EcsError Nat
  invoked : List Invocation
  statusEvents : List ecs_system_status_t

/-- Modelled from the spec: the table-iteration loop of `ecs_run` (whose
implementation is not among the sources; §4.2 "executes the system's
callback over every currently matched table"). Visits every table once, in
order; if the callback sets `interrupted_by` (returns a nonzero handle),
iteration stops immediately and that handle is the result; otherwise the
result is the null handle `0`. -/
def runAllTables (cb : IterAction) (dt : Int) (param : Nat) :
    List Table → List Invocation × Nat
  | [] => ([], 0)
  | t :: rest =>
    let iter : Iter := ⟨t, t.entities, dt, param⟩
    let inv : Invocation := ⟨t.id, t.entities, dt, param⟩
    let r := cb iter
    if r ≠ 0 then ([inv], r)
    else
      let tail := runAllTables cb dt param rest
      (inv :: tail.1, tail.2)

/-- Modelled from the spec: `ecs_run` (§4.2, and the documentation of
`ecs_run` in `systems.h`; the implementation is not among the sources).
On a disabled system it is a no-op returning the null handle. When the
system declares a tick source, the source is read at the start of the
call: `tick = false` skips the whole run, `tick = true` substitutes
`time_elapsed` for the caller-supplied delta (§4.5). Otherwise the
callback runs over every matched table, propagating interruption.
`ecs_run` never fires status events (§4.3: status actions fire only from
enable calls and match-set changes). -/
def ecs_run (sys : EcsSystem) (delta_time : Int) (param : Nat) : RunOutcome :=
  if sys.enabled = false then ⟨.ok 0, [], []⟩
  else
    match sys.tickSource with
    | some ts =>
      if ts.tick = false then ⟨.ok 0, [], []⟩
      else
        let r := runAllTables sys.action ts.time_elapsed param sys.matchedTables
        ⟨.ok r.2, r.1, []⟩
    | none =>
      let r := runAllTables sys.action delta_time param sys.matchedTables
      ⟨.ok r.2, r.1, []⟩

/-- Modelled from the spec: does a table pass a type filter (§4.2: "a type
filter restricts which tables are visited to those whose signature also
satisfies the filter"; `systems.h`: "Only types that contain all components
in the type filter will be iterated over"). `none` means no filtering. -/
def tablePassesFilter (filter : Option (List Nat)) (t : Table) : Bool :=
  match filter with
  | none => true
  | some f => f.all (fun c => t.typ.contains c)

/-- Modelled from the spec: the windowed iteration loop of
`ecs_run_w_filter` (§4.2; implementation not among the sources). `off` and
`lim` are the remaining global offset and limit. Tables wholly inside the
skipped prefix are passed over without invoking the callback; the first
partially-covered table is visited with a partial entity slice; iteration
stops once `lim` entities have been visited or the callback interrupts. -/
def runTablesWindow (cb : IterAction) (dt : Int) (param : Nat) :
    List Table → Nat → Nat → List Invocation × Nat
  | [], _, _ => ([], 0)
  | t :: rest, off, lim =>
    if lim = 0 then ([], 0)
    else if t.entities.length ≤ off then
      runTablesWindow cb dt param rest (off - t.entities.length) lim
    else
      let slice := (t.entities.drop off).take lim
      let iter : Iter := ⟨t, slice, dt, param⟩
      let inv : Invocation := ⟨t.id, slice, dt, param⟩
      let r := cb iter
      if r ≠ 0 then ([inv], r)
      else
        let tail := runTablesWindow cb dt param rest 0 (lim - slice.length)
        (inv :: tail.1, tail.2)

/-- Modelled from the spec: `ecs_run_w_filter` (§4.2, §7, and the
documentation of `ecs_run_w_filter` in `systems.h`; the implementation is
not among the sources). A negative `offset` or `limit` fails with
`InvalidRangeError` before any callback runs (§7: "the call fails outright
before any callback runs"). Otherwise, like `ecs_run`, but only tables
passing the type filter are visited, and the `offset`/`limit` window is
applied across the concatenation of their entities in visitation order. -/
def ecs_run_w_filter (sys : EcsSystem) (delta_time : Int)
    (offset limit : Int) (filter : Option (List Nat)) (param : Nat) :
    RunOutcome :=
  if offset < 0 ∨ limit < 0 then ⟨.error .InvalidRangeError, [], []⟩
  else if sys.enabled = false then ⟨.ok 0, [], []⟩
  else
    let tables := sys.matchedTables.filter (tablePassesFilter filter)
    match sys.tickSource with
    | some ts =>
      if ts.tick = false then ⟨.ok 0, [], []⟩
      else
        let r := runTablesWindow sys.action ts.time_elapsed param tables
          offset.toNat limit.toNat
        ⟨.ok r.2, r.1, []⟩
    | none =>
      let r := runTablesWindow sys.action delta_time param tables
        offset.toNat limit.toNat
      ⟨.ok r.2, r.1, []⟩

/-- Total number of entities visited by a run outcome. -/
def RunOutcome.entitiesVisited (o : RunOutcome) : Nat :=
  (o.invoked.map (fun i => i.entities.length)).sum

/-- Total number of entities in a list of tables (the concatenation of
their entity lists). -/
def totalEntities (ts : List Table) : Nat :=
  (ts.map (fun t => t.entities.length)).sum

/-- The status-manager view of a system: the enabled/disabled flag, whether
the system was declared `EcsOnDemand`, and the live set of matched table
ids maintained by the query matcher. The active/inactive status is derived:
the system is active exactly when `matchedTables` is non-empty (§4.3). -/
structure EcsSystemState where
  enabled : Bool
  onDemand : Bool
  matchedTables : List Nat
  deriving DecidableEq, Repr

/-- Modelled from the spec: `ecs_enable` (§4.3, and `systems.h`: "A system
switches between enabled and disabled when an application invokes the
ecs_enable operation with a state different from the state of the system";
the implementation is not among the sources). Transitions enabled/disabled
only if the new state differs from the current one; on change the
registered status action fires with `EcsSystemEnabled` or
`EcsSystemDisabled`. Returns the new state and the status events fired. -/
def ecs_enable (s : EcsSystemState) (isEnabled : Bool) :
    EcsSystemState × List ecs_system_status_t :=
  if isEnabled = s.enabled then (s, [])
  else ({ s with enabled := isEnabled },
    [if isEnabled then .EcsSystemEnabled else .EcsSystemDisabled])

/-- Modelled from the spec: the matcher's notification that a new table now
matches the system's query (§4.3: "whenever the Matcher's live table set
for a system's query transitions from empty to non-empty, the manager
fires `Activated`"; the implementation is not among the sources). Adds the
table to the live set; fires exactly one `EcsSystemActivated` when the set
was empty before, nothing otherwise. -/
def systemTableMatched (s : EcsSystemState) (table : Nat) :
    EcsSystemState × List ecs_system_status_t :=
  ({ s with matchedTables := s.matchedTables ++ [table] },
    if s.matchedTables.isEmpty then [.EcsSystemActivated] else [])

/-- Modelled from the spec: the matcher's notification that a table no
longer matches the system's query (§4.3: "the reverse transition fires
`Deactivated`"; the implementation is not among the sources). Removes the
table from the live set; fires exactly one `EcsSystemDeactivated` when the
set transitions from non-empty to empty. -/
def systemTableUnmatched (s : EcsSystemState) (table : Nat) :
    EcsSystemState × List ecs_system_status_t :=
  let remaining := s.matchedTables.erase table
  ({ s with matchedTables := remaining },
    if ¬s.matchedTables.isEmpty ∧ remaining.isEmpty
    then [.EcsSystemDeactivated] else [])

/-- Modelled from the spec: the on-demand interest transition documented on
`ecs_set_system_status_action` in `systems.h` ("Additionally a system may
switch between enabled and disabled when it is an EcsOnDemand system, and
interest is generated or lost for one of its [out] columns"; the
implementation is not among the sources). When interest for an `[out]`
column of an `EcsOnDemand` system is generated (`interested = true`) or
lost (`interested = false`) and this differs from its current
enabled/disabled state, the system transitions and the status action fires
accordingly — without any `ecs_enable` call by the application. -/
def onDemandInterestChanged (s : EcsSystemState) (interested : Bool) :
    EcsSystemState × List ecs_system_status_t :=
  if s.onDemand ∧ interested ≠ s.enabled then
    ({ s with enabled := interested },
      [if interested then .EcsSystemEnabled else .EcsSystemDisabled])
  else (s, [])

/-- Component used for registering component triggers (`EcsTrigger` in
`systems.h`): the event kind, the target component, the entity on which
the trigger is stored, an opaque context, and an identifier standing for
the action callback. -/
structure EcsTrigger where
  kind : Nat
  component : Nat
  self : Nat
  ctx : Nat
  deriving DecidableEq, Repr

/-- The `EcsOnAdd` lifecycle event kind (an entity gained a component). -/
def EcsOnAdd : Nat := 1

/-- The `EcsOnRemove` lifecycle event kind. -/
def EcsOnRemove : Nat := 2

/-- Record of one trigger-action invocation: the trigger that fired (by its
owning entity), the affected entity batch and the registered context. -/
structure TriggerInvocation where
  trigger : Nat
  entities : List Nat
  ctx : Nat
  deriving DecidableEq, Repr

/-- A world fragment for trigger dispatch: the registered triggers and the
match state of the queries living in the world (query id to matched table
ids), which dispatch must not touch. -/
structure TriggerWorld where
  triggers : List EcsTrigger
  queryMatches : List (Nat × List Nat)
  deriving DecidableEq, Repr

/-- Modelled from the spec: trigger dispatch (§4.4: "when storage reports a
lifecycle event of `kind` affecting entities that carry `component`, the
dispatcher invokes `action` once per affected entity batch, passing the
owning entity and `ctx`. Triggers never mutate the match state of
unrelated queries"; the implementation is not among the sources). For the
lifecycle event `(kind, component)` over one affected entity batch,
invokes each registered trigger with that kind and component exactly once,
and leaves the world — in particular every query's match state —
unchanged. -/
def ecs_triggers_notify (w : TriggerWorld) (kind : Nat) (component : Nat)
    (entities : List Nat) : TriggerWorld × List TriggerInvocation :=
  (w, (w.triggers.filter
        (fun t => t.kind = kind ∧ t.component = component)).map
      (fun t => ⟨t.self, entities, t.ctx⟩))

/-- The concatenation, in visitation order, of the entity slices handed to
the callback during a run. -/
def RunOutcome.visitedEntities (o : RunOutcome) : List Nat :=
  (o.invoked.map (fun i => i.entities)).flatten

/-- The invocation record `runAllTables` produces for a table. -/
def fullBatch (dt : Int) (param : Nat) (t : Table) : Invocation :=
  ⟨t.id, t.entities, dt, param⟩

theorem runAllTables_no_interrupt (cb : IterAction) (dt : Int) (p : Nat)
    (ts : List Table) (h : ∀ t ∈ ts, cb ⟨t, t.entities, dt, p⟩ = 0) :
    runAllTables cb dt p ts = (ts.map (fullBatch dt p), 0) := by
  induction ts with
  | nil => rfl
  | cons t rest ih =>
    have ht : cb ⟨t, t.entities, dt, p⟩ = 0 := h t (List.mem_cons_self t rest)
    have hrest : ∀ t' ∈ rest, cb ⟨t', t'.entities, dt, p⟩ = 0 :=
      fun t' ht' => h t' (List.mem_cons_of_mem t ht')
    simp [runAllTables, ht, ih hrest, fullBatch]

theorem runAllTables_interrupt (cb : IterAction) (dt : Int) (p : Nat)
    (pre : List Table) (t : Table) (post : List Table) (e : Nat)
    (hpre : ∀ t' ∈ pre, cb ⟨t', t'.entities, dt, p⟩ = 0)
    (ht : cb ⟨t, t.entities, dt, p⟩ = e) (he : e ≠ 0) :
    runAllTables cb dt p (pre ++ t :: post) =
      ((pre ++ [t]).map (fullBatch dt p), e) := by
  induction pre with
  | nil => simp [runAllTables, ht, he, fullBatch]
  | cons a rest ih =>
    have ha : cb ⟨a, a.entities, dt, p⟩ = 0 := hpre a (List.mem_cons_self a rest)
    have hrest : ∀ t' ∈ rest, cb ⟨t', t'.entities, dt, p⟩ = 0 :=
      fun t' ht' => hpre t' (List.mem_cons_of_mem a ht')
    simp [runAllTables, ha, ih hrest, fullBatch]

theorem runAllTables_delta (cb : IterAction) (dt : Int) (p : Nat)
    (ts : List Table) :
    ∀ inv ∈ (runAllTables cb dt p ts).1, inv.delta_time = dt := by
  induction ts with
  | nil => intro inv h; simp [runAllTables] at h
  | cons t rest ih =>
    intro inv h
    by_cases hc : cb ⟨t, t.entities, dt, p⟩ ≠ 0
    · simp [runAllTables, hc] at h
      simp [h]
    · simp [runAllTables, hc] at h
      rcases h with h | h
      · simp [h]
      · exact ih inv h

/-- Claim C1: for an enabled system with matched tables (and no tick-source
gating), `ecs_run` invokes the callback once per matched table over the
full table batch; if the callback never sets `interrupted_by` the result
is the null handle and every table is visited, and if it first sets
`interrupted_by` to `e ≠ 0` on table `t` then `e` is returned and no table
after `t` in visitation order is visited. -/
theorem ecs_run_visits_all_tables_and_interrupts
    (sys : EcsSystem) (dt : Int) (p : Nat)
    (hen : sys.enabled = true) (hts : sys.tickSource = none)
    (hne : sys.matchedTables ≠ []) :
    ((∀ t ∈ sys.matchedTables, sys.action ⟨t, t.entities, dt, p⟩ = 0) →
      ecs_run sys dt p =
        ⟨.ok 0, sys.matchedTables.map (fullBatch dt p), []⟩) ∧
    (∀ pre t post e, sys.matchedTables = pre ++ t :: post →
      (∀ t' ∈ pre, sys.action ⟨t', t'.entities, dt, p⟩ = 0) →
      sys.action ⟨t, t.entities, dt, p⟩ = e → e ≠ 0 →
      ecs_run sys dt p = ⟨.ok e, (pre ++ [t]).map (fullBatch dt p), []⟩) := by
  constructor
  · intro hcb
    simp [ecs_run, hen, hts, runAllTables_no_interrupt sys.action dt p _ hcb]
  · intro pre t post e hsplit hpre ht he
    simp [ecs_run, hen, hts, hsplit,
      runAllTables_interrupt sys.action dt p pre t post e hpre ht he]

/-- Closed-form check of `ecs_run_visits_all_tables_and_interrupts` on a
two-table system whose callback interrupts on the entity `21`. -/
theorem ecs_run_visits_all_tables_and_interrupts_witness :
    (ecs_run
        ⟨true, [⟨1, [1, 2], [10, 11, 12]⟩, ⟨2, [1, 2, 3], [20, 21]⟩],
          (fun it => if it.entities.contains 21 then 21 else 0), none⟩
        16 7) =
      ⟨.ok 21,
        [⟨1, [10, 11, 12], 16, 7⟩, ⟨2, [20, 21], 16, 7⟩], []⟩ := by
  have h := ecs_run_visits_all_tables_and_interrupts
    ⟨true, [⟨1, [1, 2], [10, 11, 12]⟩, ⟨2, [1, 2, 3], [20, 21]⟩],
      (fun it => if it.entities.contains 21 then 21 else 0), none⟩
    16 7 rfl rfl (by decide)
  have h2 := h.2 [⟨1, [1, 2], [10, 11, 12]⟩] ⟨2, [1, 2, 3], [20, 21]⟩ [] 21
    rfl (by decide) rfl (by decide)
  simpa [fullBatch] using h2

/-- Claim C2: running a disabled system is a no-op: the callback is never
invoked, no status event fires, and the null handle is returned
(`ecs_run` leaves the system itself untouched: it is a pure function of
the system). -/
theorem ecs_run_disabled_noop (sys : EcsSystem) (dt : Int) (p : Nat)
    (h : sys.enabled = false) :
    ecs_run sys dt p = ⟨.ok 0, [], []⟩ := by
  simp [ecs_run, h]

/-- Closed-form check of `ecs_run_disabled_noop` on a disabled one-table
system. -/
theorem ecs_run_disabled_noop_witness :
    ecs_run ⟨false, [⟨1, [1], [5, 6]⟩], (fun _ => 3), none⟩ 1 0 =
      ⟨.ok 0, [], []⟩ :=
  ecs_run_disabled_noop ⟨false, [⟨1, [1], [5, 6]⟩], (fun _ => 3), none⟩ 1 0 rfl

/-- Claim C3: running an enabled system whose query matches zero tables invokes
the callback zero times and returns the null handle; the system stays
enabled (the outcome does not go through the disabled branch, whose guard
`sys.enabled = false` is excluded by the hypothesis). -/
theorem ecs_run_empty_match_set (sys : EcsSystem) (dt : Int) (p : Nat)
    (hen : sys.enabled = true) (hmt : sys.matchedTables = []) :
    ecs_run sys dt p = ⟨.ok 0, [], []⟩ := by
  cases hts : sys.tickSource with
  | none => simp [ecs_run, hen, hts, hmt, runAllTables]
  | some ts =>
    by_cases htick : ts.tick = false
    · simp [ecs_run, hen, hts, htick]
    · simp [ecs_run, hen, hts, htick, hmt, runAllTables]

/-- Closed-form check of `ecs_run_empty_match_set` on an enabled system
with no matched tables. -/
theorem ecs_run_empty_match_set_witness :
    ecs_run ⟨true, [], (fun _ => 3), none⟩ 2 9 = ⟨.ok 0, [], []⟩ :=
  ecs_run_empty_match_set ⟨true, [], (fun _ => 3), none⟩ 2 9 rfl rfl

/-- Claim C5: `ecs_run_w_filter` with a negative offset or a negative limit
fails with `InvalidRangeError`, with zero callback invocations and no
status event (the check precedes all iteration, so no state is touched). -/
theorem ecs_run_w_filter_negative_range (sys : EcsSystem) (dt : Int)
    (offset limit : Int) (filter : Option (List Nat)) (p : Nat)
    (h : offset < 0 ∨ limit < 0) :
    ecs_run_w_filter sys dt offset limit filter p =
      ⟨.error .InvalidRangeError, [], []⟩ := by
  simp [ecs_run_w_filter, h]

/-- Closed-form check of `ecs_run_w_filter_negative_range` at
`offset = -1`. -/
theorem ecs_run_w_filter_negative_range_witness :
    ecs_run_w_filter ⟨true, [⟨1, [1], [5]⟩], (fun _ => 0), none⟩ 1 (-1) 4
        none 0 =
      ⟨.error .InvalidRangeError, [], []⟩ :=
  ecs_run_w_filter_negative_range ⟨true, [⟨1, [1], [5]⟩], (fun _ => 0), none⟩
    1 (-1) 4 none 0 (Or.inl (by decide))

/-- Claim C8: a system with a tick-source dependency reads it at the start of
`ecs_run`: with `tick = false` the whole run is skipped (zero callback
invocations, no status event, null handle, exactly as for a disabled
system); with `tick = true` every callback invocation receives the tick
source's `time_elapsed` in place of the caller-supplied delta time. -/
theorem ecs_run_tick_source (sys : EcsSystem) (tick : Bool) (τ : Int)
    (dt : Int) (p : Nat) (h : sys.tickSource = some ⟨tick, τ⟩) :
    (tick = false → ecs_run sys dt p = ⟨.ok 0, [], []⟩) ∧
    (tick = true →
      ∀ inv ∈ (ecs_run sys dt p).invoked, inv.delta_time = τ) := by
  constructor
  · intro htick
    by_cases hen : sys.enabled = false
    · simp [ecs_run, hen]
    · simp [ecs_run, hen, h, htick]
  · intro htick inv hinv
    by_cases hen : sys.enabled = false
    · simp [ecs_run, hen] at hinv
    · simp [ecs_run, hen, h, htick] at hinv
      exact runAllTables_delta sys.action τ p sys.matchedTables inv hinv

/-- Closed-form check of `ecs_run_tick_source`: a tick source with
`tick = false` makes the whole run a no-op, with zero callback
invocations on a non-empty match set. -/
theorem ecs_run_tick_source_witness :
    ecs_run ⟨true, [⟨1, [1], [5, 6]⟩], (fun _ => 0), some ⟨false, 42⟩⟩ 7 0
      = ⟨.ok 0, [], []⟩ :=
  (ecs_run_tick_source
      ⟨true, [⟨1, [1], [5, 6]⟩], (fun _ => 0), some ⟨false, 42⟩⟩
      false 42 7 0 rfl).1 rfl

theorem entitiesVisited_eq_length (o : RunOutcome) :
    o.entitiesVisited = o.visitedEntities.length := by
  simp only [RunOutcome.entitiesVisited, RunOutcome.visitedEntities,
    List.length_flatten, List.map_map]
  rfl

theorem runTablesWindow_window (cb : IterAction) (dt : Int) (p : Nat)
    (hcb : ∀ it, cb it = 0) :
    ∀ (ts : List Table) (off lim : Nat),
      ((runTablesWindow cb dt p ts off lim).1.map
          (fun i => i.entities)).flatten
          = ((ts.map (fun t => t.entities)).flatten.drop off).take lim
        ∧ (runTablesWindow cb dt p ts off lim).2 = 0 := by
  intro ts
  induction ts with
  | nil =>
    intro off lim
    simp [runTablesWindow]
  | cons t rest ih =>
    intro off lim
    by_cases hlim : lim = 0
    · simp [runTablesWindow, hlim]
    · by_cases hoff : t.entities.length ≤ off
      · have hih := ih (off - t.entities.length) lim
        have hdrop : t.entities.drop off = [] := List.drop_eq_nil_of_le hoff
        constructor
        · rw [runTablesWindow]
          simp only [hlim, hoff, if_false, if_true, ite_false, ite_true]
          rw [hih.1]
          simp [List.drop_append_eq_append_drop, hdrop]
        · rw [runTablesWindow]
          simp only [hlim, hoff, if_false, if_true, ite_false, ite_true]
          exact hih.2
      · have hih := ih 0 (lim - ((t.entities.drop off).take lim).length)
        have hslice : ((t.entities.drop off).take lim).length
            = min lim (t.entities.length - off) := by
          simp [List.length_take, List.length_drop]
        constructor
        · rw [runTablesWindow]
          simp only [hlim, hoff, if_false, if_true, ite_false, ite_true,
            hcb, ne_eq, not_true_eq_false]
          simp only [List.map_cons, List.flatten_cons]
          rw [hih.1]
          rw [List.drop_append_eq_append_drop, List.take_append_eq_append_take]
          have h0 : off - t.entities.length = 0 := by omega
          have h1 : lim - (t.entities.drop off).length
              = lim - ((t.entities.drop off).take lim).length := by
            simp only [List.length_take, List.length_drop]
            omega
          rw [h0, h1]
        · rw [runTablesWindow]
          simp only [hlim, hoff, if_false, if_true, ite_false, ite_true,
            hcb, ne_eq, not_true_eq_false]
          exact hih.2

/-- Claim C4: for an enabled system (without tick-source gating) and a
non-interrupting callback, `ecs_run_w_filter` with non-negative `offset`
and `limit` visits exactly the entity window
`take limit (drop offset ·)` of the concatenation, in visitation order, of
the entities of all matched, filter-passing tables — so the number of
visited entities is exactly `min limit (totalMatched - offset)` (zero when
`offset ≥ totalMatched`), entities before the offset are skipped, and at
most `limit` entities are visited even when that partially consumes a
table. -/
theorem ecs_run_w_filter_window (sys : EcsSystem) (dt : Int)
    (offset limit : Int) (filter : Option (List Nat)) (p : Nat)
    (hen : sys.enabled = true) (hts : sys.tickSource = none)
    (hcb : ∀ it, sys.action it = 0)
    (hoff : 0 ≤ offset) (hlim : 0 ≤ limit) :
    (ecs_run_w_filter sys dt offset limit filter p).visitedEntities
        = (((sys.matchedTables.filter (tablePassesFilter filter)).map
            (fun t => t.entities)).flatten.drop offset.toNat).take limit.toNat
      ∧ (ecs_run_w_filter sys dt offset limit filter p).entitiesVisited
        = min limit.toNat
            (totalEntities (sys.matchedTables.filter (tablePassesFilter filter))
              - offset.toNat) := by
  have hrange : ¬(offset < 0 ∨ limit < 0) := by omega
  have hwin := runTablesWindow_window sys.action dt p hcb
    (sys.matchedTables.filter (tablePassesFilter filter))
    offset.toNat limit.toNat
  have hout : ecs_run_w_filter sys dt offset limit filter p =
      ⟨.ok (runTablesWindow sys.action dt p
          (sys.matchedTables.filter (tablePassesFilter filter))
          offset.toNat limit.toNat).2,
        (runTablesWindow sys.action dt p
          (sys.matchedTables.filter (tablePassesFilter filter))
          offset.toNat limit.toNat).1, []⟩ := by
    simp [ecs_run_w_filter, hrange, hen, hts]
  constructor
  · rw [hout]
    exact hwin.1
  · rw [entitiesVisited_eq_length, hout]
    show ((runTablesWindow sys.action dt p _ _ _).1.map
        (fun i => i.entities)).flatten.length = _
    rw [hwin.1]
    simp only [List.length_take, List.length_drop, List.length_flatten,
      List.map_map]
    rw [totalEntities]
    rfl

/-- Closed-form check of `ecs_run_w_filter_window` on the spec's scenario:
tables of 3 and 2 entities, `offset = 2`, `limit = 2` — exactly the
entities at global indices 2 and 3 are visited. -/
theorem ecs_run_w_filter_window_witness :
    (ecs_run_w_filter
        ⟨true, [⟨1, [1, 2], [10, 11, 12]⟩, ⟨2, [1, 2, 3], [20, 21]⟩],
          (fun _ => 0), none⟩ 16 2 2 none 0).visitedEntities = [12, 20]
      ∧ (ecs_run_w_filter
        ⟨true, [⟨1, [1, 2], [10, 11, 12]⟩, ⟨2, [1, 2, 3], [20, 21]⟩],
          (fun _ => 0), none⟩ 16 2 2 none 0).entitiesVisited = 2 := by
  have h := ecs_run_w_filter_window
    ⟨true, [⟨1, [1, 2], [10, 11, 12]⟩, ⟨2, [1, 2, 3], [20, 21]⟩],
      (fun _ => 0), none⟩ 16 2 2 none 0
    rfl rfl (fun _ => rfl) (by decide) (by decide)
  constructor
  · rw [h.1]; rfl
  · rw [h.2]; rfl

/-- Claim C6: with a status action registered (the event lists below are the
invocations of that action), the matcher's table notifications drive
activation: when the live matched-table set goes from empty to non-empty
exactly one `EcsSystemActivated` fires; adding a further matching table to
an already non-empty set fires nothing; when the set goes from non-empty
to empty exactly one `EcsSystemDeactivated` fires. -/
theorem system_activation_transitions (s : EcsSystemState) (t : Nat) :
    (s.matchedTables = [] →
      (systemTableMatched s t).2 = [.EcsSystemActivated]) ∧
    (s.matchedTables ≠ [] → (systemTableMatched s t).2 = []) ∧
    (s.matchedTables ≠ [] → s.matchedTables.erase t = [] →
      (systemTableUnmatched s t).2 = [.EcsSystemDeactivated]) := by
  refine ⟨fun h => ?_, fun h => ?_, fun h h2 => ?_⟩
  · simp [systemTableMatched, h]
  · simp [systemTableMatched, h]
  · simp [systemTableUnmatched, h, h2]

/-- Closed-form check of `system_activation_transitions`: the first
matching table activates, a second one does not, removing the last
deactivates. -/
theorem system_activation_transitions_witness :
    (systemTableMatched ⟨true, false, []⟩ 5).2 = [.EcsSystemActivated]
      ∧ (systemTableMatched ⟨true, false, [5]⟩ 6).2 = []
      ∧ (systemTableUnmatched ⟨true, false, [5]⟩ 5).2 =
          [.EcsSystemDeactivated] :=
  ⟨(system_activation_transitions ⟨true, false, []⟩ 5).1 rfl,
    (system_activation_transitions ⟨true, false, [5]⟩ 6).2.1 (by decide),
    (system_activation_transitions ⟨true, false, [5]⟩ 5).2.2 (by decide) rfl⟩

/-- Claim C7: `ecs_enable` changes the enabled/disabled state and invokes the
status action only when the requested state differs from the current one;
enabling a disabled system whose match set is non-empty fires exactly one
`EcsSystemEnabled` event and nothing else — in particular no
`EcsSystemActivated`. -/
theorem ecs_enable_transitions (s : EcsSystemState) (isEnabled : Bool) :
    (isEnabled = s.enabled → ecs_enable s isEnabled = (s, [])) ∧
    (isEnabled ≠ s.enabled →
      (ecs_enable s isEnabled).1.enabled = isEnabled ∧
      (ecs_enable s isEnabled).2 =
        [if isEnabled then .EcsSystemEnabled else .EcsSystemDisabled]) ∧
    (s.enabled = false → s.matchedTables ≠ [] →
      (ecs_enable s true).2 = [.EcsSystemEnabled]) := by
  refine ⟨fun h => ?_, fun h => ?_, fun h hm => ?_⟩
  · simp [ecs_enable, h]
  · simp [ecs_enable, h]
  · simp [ecs_enable, h]

/-- Closed-form check of `ecs_enable_transitions`: enabling a disabled
system with a non-empty match set fires exactly `[EcsSystemEnabled]`, and
enabling an already enabled system fires nothing. -/
theorem ecs_enable_transitions_witness :
    (ecs_enable ⟨false, false, [3]⟩ true).2 = [.EcsSystemEnabled]
      ∧ ecs_enable ⟨true, false, [3]⟩ true = (⟨true, false, [3]⟩, []) :=
  ⟨(ecs_enable_transitions ⟨false, false, [3]⟩ true).2.2 rfl (by decide),
    (ecs_enable_transitions ⟨true, false, [3]⟩ true).1 rfl⟩

/-- Claim C10: `ecs_enable` is not the only source of Enabled/Disabled status
events: for an `EcsOnDemand` system, generating interest for one of its
`[out]` columns while it is disabled enables it and fires
`EcsSystemEnabled`, and losing interest while it is enabled disables it
and fires `EcsSystemDisabled` — all without any `ecs_enable` call. -/
theorem on_demand_interest_transitions (s : EcsSystemState)
    (hod : s.onDemand = true) :
    (s.enabled = false → onDemandInterestChanged s true
        = ({ s with enabled := true }, [.EcsSystemEnabled])) ∧
    (s.enabled = true → onDemandInterestChanged s false
        = ({ s with enabled := false }, [.EcsSystemDisabled])) := by
  refine ⟨fun h => ?_, fun h => ?_⟩
  · simp [onDemandInterestChanged, hod, h]
  · simp [onDemandInterestChanged, hod, h]

/-- Closed-form check of `on_demand_interest_transitions` on a disabled
on-demand system gaining interest. -/
theorem on_demand_interest_transitions_witness :
    onDemandInterestChanged ⟨false, true, [4]⟩ true
      = (⟨true, true, [4]⟩, [.EcsSystemEnabled]) :=
  (on_demand_interest_transitions ⟨false, true, [4]⟩ rfl).1 rfl

theorem count_map_filter_triggers (p : EcsTrigger → Bool) (tr : EcsTrigger)
    (es : List Nat) (l : List EcsTrigger) (h1 : p tr = true)
    (h2 : ∀ t, p t = true →
      (TriggerInvocation.mk t.self es t.ctx)
        = TriggerInvocation.mk tr.self es tr.ctx → t = tr) :
    ((l.filter p).map
        (fun t => (⟨t.self, es, t.ctx⟩ : TriggerInvocation))).count
      ⟨tr.self, es, tr.ctx⟩ = l.count tr := by
  induction l with
  | nil => simp
  | cons a rest ih =>
    rw [List.filter_cons]
    by_cases hpa : p a = true
    · rw [if_pos hpa, List.map_cons, List.count_cons, List.count_cons, ih]
      by_cases heq : a = tr
      · simp [heq]
      · have hinv : ¬(TriggerInvocation.mk a.self es a.ctx)
            = TriggerInvocation.mk tr.self es tr.ctx :=
          fun hEq => heq (h2 a hpa hEq)
        simp [heq, hinv]
    · have ha : ¬a = tr := fun hEq => hpa (hEq ▸ h1)
      rw [if_neg hpa, List.count_cons]
      simp [ha, ih]

/-- Claim C9: a trigger registered (exactly once) for kind `EcsOnAdd` and a
component fires exactly once when an entity gains that component: the
dispatched invocation list contains exactly one invocation of this
trigger, carrying the affected entity batch and the registered context,
and dispatch leaves the world — including every query's match state —
unchanged. -/
theorem trigger_on_add_dispatch (w : TriggerWorld) (tr : EcsTrigger)
    (e : Nat) (hcount : w.triggers.count tr = 1)
    (hkind : tr.kind = EcsOnAdd) :
    ((ecs_triggers_notify w EcsOnAdd tr.component [e]).2.count
        ⟨tr.self, [e], tr.ctx⟩ = 1)
      ∧ (ecs_triggers_notify w EcsOnAdd tr.component [e]).1.queryMatches
          = w.queryMatches := by
  refine ⟨?_, rfl⟩
  show ((w.triggers.filter _).map _).count _ = 1
  rw [count_map_filter_triggers _ tr [e] w.triggers (by simp [hkind])
      (fun t hpt hEq => by
        simp at hpt hEq
        obtain ⟨hk, hc⟩ := hpt
        obtain ⟨hs, hx⟩ := hEq
        cases t; cases tr
        simp_all),
    hcount]

/-- Closed-form check of `trigger_on_add_dispatch`: one registered
`EcsOnAdd` trigger on component `2`, an entity gains component `2`, the
trigger fires exactly once with that entity and its context. -/
theorem trigger_on_add_dispatch_witness :
    ((ecs_triggers_notify ⟨[⟨EcsOnAdd, 2, 100, 9⟩], [(0, [3])]⟩
        EcsOnAdd 2 [77]).2.count ⟨100, [77], 9⟩ = 1)
      ∧ (ecs_triggers_notify ⟨[⟨EcsOnAdd, 2, 100, 9⟩], [(0, [3])]⟩
          EcsOnAdd 2 [77]).1.queryMatches = [(0, [3])] :=
  trigger_on_add_dispatch ⟨[⟨EcsOnAdd, 2, 100, 9⟩], [(0, [3])]⟩
    ⟨EcsOnAdd, 2, 100, 9⟩ 77 (by decide) rfl

end Flecs
